import Mathlib

/-!
Verification of the ImageRegistration batch-preprocessing core.

The Python source is shallowly embedded: voxel arrays become `List ℚ`
(numpy float64 arithmetic is modelled exactly over the rationals), Python
dicts become association lists with last-write-wins insertion, raised
exceptions become `Except String`, and each stateful class becomes a
structure with methods taking and returning the structure.
-/

set_option maxRecDepth 4000

/-! ## Python dicts as association lists -/

/-- Python dict assignment d[k] = v: replace the value at an existing key in
place, otherwise append the binding at the end (insertion order). -/
def ctxInsert {V : Type} (c : List (String × V)) (k : String) (v : V) :
    List (String × V) :=
  match c with
  | [] => [(k, v)]
  | (k', v') :: rest =>
    if k' = k then (k, v) :: rest else (k', v') :: ctxInsert rest k v

/-- Python dict.update(r): assign every binding of r into c in order. -/
def ctxUpdate {V : Type} (c r : List (String × V)) : List (String × V) :=
  r.foldl (fun acc kv => ctxInsert acc kv.1 kv.2) c

/-- Python dict lookup d.get(k): first binding wins (keys are unique by
construction of ctxInsert). -/
def ctxLookup {V : Type} (c : List (String × V)) (k : String) : Option V :=
  match c with
  | [] => none
  | (k', v) :: rest => if k' = k then some v else ctxLookup rest k

/-! ## numpy primitives over exact rationals -/

/-- np.percentile(xs, q) with the default linear interpolation method:
sort ascending, take position q/100 * (n-1), interpolate between the two
neighbouring order statistics. Empty input is given the junk value 0 (numpy
raises there; all uses in scope have nonempty input). -/
def npPercentile (xs : List ℚ) (q : ℚ) : ℚ :=
  let s := List.insertionSort (· ≤ ·) xs
  if s.length = 0 then 0
  else
    let pos : ℚ := q * ((s.length : ℚ) - 1) / 100
    let i : ℤ := ⌊pos⌋
    let lo := s.getD i.toNat 0
    let hi := s.getD (min (i.toNat + 1) (s.length - 1)) 0
    lo + (pos - (i : ℚ)) * (hi - lo)

/-- np.mean. Empty input gives 0 (division by zero in ℚ; numpy gives nan). -/
def npMean (xs : List ℚ) : ℚ := xs.sum / (xs.length : ℚ)

/-- np.median: average of the two middle order statistics for even length,
middle order statistic for odd length. -/
def npMedian (xs : List ℚ) : ℚ :=
  let s := List.insertionSort (· ≤ ·) xs
  if s.length = 0 then 0
  else if s.length % 2 = 1 then s.getD (s.length / 2) 0
  else (s.getD (s.length / 2 - 1) 0 + s.getD (s.length / 2) 0) / 2

/-- np.mean(axis=0) over a list of rows, each read at width m with numpy
broadcasting replaced by getD default 0 (all rows in scope have length m). -/
def colMean (rows : List (List ℚ)) (m : Nat) : List ℚ :=
  (List.range m).map fun i => (rows.map fun r => r.getD i 0).sum / (rows.length : ℚ)

/-! ## NyulStandardizer -/

/-- State of a NyulStandardizer object (nyul_standardizer.py, __init__ plus
the base class IntensityStandardizer.__init__): trained flag, the JSON
parameter dict, the configured percentile landmarks and target scale, and
the standard_landmarks attribute (None until train runs). -/
structure NyulStandardizer where
  trained : Bool
  parameters : List (String × List ℚ)
  landmarks_percentage : List ℚ
  standard_scale : ℚ × ℚ
  standard_landmarks : Option (List ℚ)
  deriving DecidableEq

/-- NyulStandardizer(landmarks_percentage, standard_scale): fresh untrained
instance. -/
def NyulStandardizer.init (lmPct : List ℚ) (scale : ℚ × ℚ) : NyulStandardizer :=
  { trained := false
    parameters := []
    landmarks_percentage := lmPct
    standard_scale := scale
    standard_landmarks := none }

/-- The percentile landmark vector of one image: np.percentile of the
non-background (value > 0) voxels at each configured percentile. -/
def imageLandmarks (lmPct : List ℚ) (img : List ℚ) : List ℚ :=
  lmPct.map (npPercentile (img.filter fun v => 0 < v))

/-- NyulStandardizer.train, lines 38-64: per-image percentile landmarks,
elementwise mean across images, then the overwrites: index 0 := scale lo,
last index := scale hi, and every interior index i := lo + (hi-lo) * i/(n-1)
by the explicit loop for i in range(1, len-1). -/
def nyulOverrideLandmarks (avg : List ℚ) (lo hi : ℚ) (m : Nat) : List ℚ :=
  let a1 := avg.set 0 lo
  let a2 := a1.set (a1.length - 1) hi
  (List.range' 1 (m - 1 - 1)).foldl
    (fun acc i => acc.set i (lo + (hi - lo) * ((i : ℚ) / ((m : ℚ) - 1)))) a2

def nyulTrainedLandmarks (lmPct : List ℚ) (lo hi : ℚ) (images : List (List ℚ)) :
    List ℚ :=
  nyulOverrideLandmarks (colMean (images.map (imageLandmarks lmPct)) lmPct.length)
    lo hi lmPct.length

/-- NyulStandardizer.train on the object state: stores the landmark vector,
records both parameter-dict entries, and sets trained. -/
def NyulStandardizer.train (s : NyulStandardizer) (images : List (List ℚ)) :
    NyulStandardizer :=
  let lms := nyulTrainedLandmarks s.landmarks_percentage
    s.standard_scale.1 s.standard_scale.2 images
  { s with
    standard_landmarks := some lms
    parameters := ctxUpdate s.parameters
      [("standard_landmarks", lms), ("landmarks_percentage", s.landmarks_percentage)]
    trained := true }

/-- The per-voxel mapping of NyulStandardizer.transform, lines 90-111:
standardized starts at 0; the loop assigns the piecewise-linear value on
each source interval mask (lower <= v < upper) guarded by upper > lower;
then voxels at or above the top source landmark are overwritten with the top
standard landmark; finally zero voxels are overwritten with 0.  The three
sequential overwrites are expressed as nested conditionals, innermost
override first. -/
def nyulTransformVoxel (src std : List ℚ) (v : ℚ) : ℚ :=
  let piece := (List.range (src.length - 1)).foldl
    (fun acc i =>
      if src.getD i 0 ≤ v ∧ v < src.getD (i + 1) 0 ∧ src.getD i 0 < src.getD (i + 1) 0 then
        std.getD i 0 +
          (std.getD (i + 1) 0 - std.getD i 0) / (src.getD (i + 1) 0 - src.getD i 0) *
            (v - src.getD i 0)
      else acc) 0
  if v = 0 then 0
  else if src.getLastD 0 ≤ v then std.getLastD 0
  else piece

/-- The array part of NyulStandardizer.transform with the standard landmark
vector already in hand: recompute the input image landmarks and map every
voxel. -/
def nyulTransformArray (lmPct std : List ℚ) (img : List ℚ) : List ℚ :=
  img.map (nyulTransformVoxel (imageLandmarks lmPct img) std)

/-- NyulStandardizer.transform on the object state: raises when not trained;
indexing self.standard_landmarks while it is None raises TypeError (this is
reachable: load_parameters sets trained without restoring the attribute). -/
def NyulStandardizer.transform (s : NyulStandardizer) (img : List ℚ) :
    Except String (List ℚ) :=
  if s.trained = false then
    .error "Standardizer must be trained before transform"
  else
    match s.standard_landmarks with
    | none => .error "TypeError: NoneType object is not subscriptable"
    | some std => .ok (nyulTransformArray s.landmarks_percentage std img)

/-- IntensityStandardizer.save_parameters: json.dump writes exactly
self.parameters. -/
def NyulStandardizer.save_parameters (s : NyulStandardizer) :
    List (String × List ℚ) :=
  s.parameters

/-- IntensityStandardizer.load_parameters: replaces self.parameters with the
file content and sets self.trained = True.  No other attribute is touched:
in particular standard_landmarks keeps its current value. -/
def NyulStandardizer.load_parameters (s : NyulStandardizer)
    (file : List (String × List ℚ)) : NyulStandardizer :=
  { s with parameters := file, trained := true }

/-! ## ZScoreStandardizer -/

/-- np.std with the default ddof=0 is the square root of this population
variance.  The square root itself is an external numpy float primitive; the
zscore definitions take it as an explicit argument sqrtFn. -/
def npVariance (xs : List ℚ) : ℚ :=
  (xs.map fun x => (x - npMean xs) ^ 2).sum / (xs.length : ℚ)

/-- The per-image statistics of ZScoreStandardizer.transform in the
untrained branch, lines 63-72: median and 1.4826 * median absolute
deviation under the robust flag, otherwise mean and np.std. -/
def zscorePerImageStats (sqrtFn : ℚ → ℚ) (robust : Bool) (vals : List ℚ) :
    ℚ × ℚ :=
  if robust then
    (npMedian vals, npMedian (vals.map fun x => |x - npMedian vals|) * (14826 / 10000))
  else
    (npMean vals, sqrtFn (npVariance vals))

/-- State of a ZScoreStandardizer object: robust flag, trained flag, and the
global statistics (None until train runs). -/
structure ZScoreStandardizer where
  use_robust_statistics : Bool
  trained : Bool
  global_mean : Option ℚ
  global_std : Option ℚ
  deriving DecidableEq

/-- ZScoreStandardizer.transform, lines 58-87: untrained uses per-image
statistics of the non-background voxels; trained uses the stored global
statistics (arithmetic on a missing stored value is a raised TypeError).
Output voxels: (value - center) / (scale + 1e-8) where value > 0, else 0. -/
def ZScoreStandardizer.transform (sqrtFn : ℚ → ℚ) (s : ZScoreStandardizer)
    (img : List ℚ) : Except String (List ℚ) :=
  let apply : ℚ × ℚ → List ℚ := fun cs =>
    img.map fun v => if 0 < v then (v - cs.1) / (cs.2 + 1 / 100000000) else 0
  if s.trained = false then
    .ok (apply (zscorePerImageStats sqrtFn s.use_robust_statistics
      (img.filter fun v => 0 < v)))
  else
    match s.global_mean, s.global_std with
    | some m, some sd => .ok (apply (m, sd))
    | _, _ => .error "TypeError: unsupported operand type for NoneType"

/-! ## BasePipeline engine -/

/-- One pipeline step (base_pipeline.py PipelineStep): a name, the
validate_inputs check, and execute, whose raised exceptions are the error
branch.  The returned dict is the partial context merged by the engine. -/
structure PStep (V : Type) where
  name : String
  validate : List (String × V) → Bool
  run : List (String × V) → Except String (List (String × V))

/-- One entry of self.results for a step: the step result dict (None on
failure), the status string, and the error text. -/
structure StepRec (V : Type) where
  result : Option (List (String × V))
  status : String
  error : Option String

/-- The engine loop of BasePipeline.execute, lines 102-194: validate (a
validation failure raises ValueError and is handled identically to an
execution failure), run, merge the returned keys into the context, record a
step_results entry keyed by step name; on failure record the failed entry
and, unless continue_on_error, abort immediately with status failed and the
exception surfaced; when the loop completes, status completed. -/
def runSteps {V : Type} (continueOnError : Bool) :
    List (PStep V) → List (String × V) → List (String × StepRec V) →
    (List (String × StepRec V) × String × Option String × List (String × V))
  | [], ctx, acc => (acc, "completed", none, ctx)
  | s :: rest, ctx, acc =>
    match (if s.validate ctx then s.run ctx
           else .error ("Input validation failed for step: " ++ s.name)) with
    | .ok r =>
      runSteps continueOnError rest (ctxUpdate ctx r)
        (ctxInsert acc s.name ⟨some r, "success", none⟩)
    | .error e =>
      let acc' := ctxInsert acc s.name ⟨none, "failed", some e⟩
      if continueOnError then runSteps continueOnError rest ctx acc'
      else (acc', "failed", some e, ctx)

/-- BasePipeline.execute: run the configured steps on a copy of the input
context.  Result: (step_results, final pipeline status, the surfaced
exception if any, final context). -/
def BasePipeline.execute {V : Type} (steps : List (PStep V))
    (input : List (String × V)) (continueOnError : Bool) :
    List (String × StepRec V) × String × Option String × List (String × V) :=
  runSteps continueOnError steps input []

/-! ## PatientDiscoveryStep -/

/-- One immediate child of the scanned root directory. -/
structure DirEntry where
  name : String
  isDir : Bool
  files : List String
  deriving DecidableEq

/-- The pattern conventions of PatientDiscoveryStep.execute, lines 68-72, in
priority order.  Each glob pattern is a leading * followed by this suffix,
so matching is suffix matching on the file name. -/
def discoveryPatterns : List (String × String) :=
  [("_t2w.nii.gz", "_adc.nii.gz"),
   ("_T2W.nii.gz", "_ADC.nii.gz"),
   ("t2.nii.gz", "adc.nii.gz")]

/-- Suffix test on file names (glob patterns here are a leading * followed
by a literal suffix), on the character lists of the strings. -/
def strEndsWith (f sfx : String) : Bool :=
  sfx.data.isSuffixOf f.data

/-- Leading-dot test on directory names, on the character lists. -/
def strStartsWith (f pre : String) : Bool :=
  pre.data.isPrefixOf f.data

/-- patient_dir.glob of one pattern: the files whose name ends with the
pattern suffix, in directory order. -/
def globCandidates (d : DirEntry) (suffix : String) : List String :=
  d.files.filter fun f => strEndsWith f suffix

/-- Lines 87-106: try each pattern convention in order taking the first
where both candidate lists are nonempty (first candidate of each wins);
if none matched, fall back to the exact names patient_id_t2w.nii.gz and
patient_id_adc.nii.gz. -/
def findModalityPaths (d : DirEntry) : Option (String × String) :=
  match discoveryPatterns.findSome? (fun pat =>
    match globCandidates d pat.1, globCandidates d pat.2 with
    | t :: _, a :: _ => some (t, a)
    | _, _ => none) with
  | some p => some p
  | none =>
    if d.files.contains (d.name ++ "_t2w.nii.gz") ∧
        d.files.contains (d.name ++ "_adc.nii.gz") then
      some (d.name ++ "_t2w.nii.gz", d.name ++ "_adc.nii.gz")
    else none

/-- Whether PatientDiscoveryStep includes this child in the work list. -/
def dirIncluded (d : DirEntry) : Bool :=
  d.isDir && !(strStartsWith d.name ".") && (findModalityPaths d).isSome

/-- The discovered work item of one patient directory. -/
structure WorkItem where
  patient_id : String
  t2w_path : String
  adc_path : String
  deriving DecidableEq

/-- The loop body of PatientDiscoveryStep.execute for one child: skip
non-directories and dot-prefixed names, then the modality-pair search. -/
def discoverDir (d : DirEntry) : Option WorkItem :=
  if d.isDir = false then none
  else if strStartsWith d.name "." then none
  else (findModalityPaths d).map fun p => ⟨d.name, p.1, p.2⟩

/-- PatientDiscoveryStep.execute, lines 61-124: scan the immediate children,
appending one work item for each included directory. -/
def PatientDiscoveryStep.execute (root : List DirEntry) : List WorkItem :=
  root.filterMap discoverDir

/-! ## BatchProcessingStep -/

/-- The per-patient result dict of _process_single_patient (and of the
exception handler around it).  Absent dict keys are None here: the handler
dict has no outputs_saved and no execution_time. -/
structure PatientOutcome where
  success : Bool
  error : Option String
  error_type : Option String
  outputs_saved : List String
  execution_time : Option ℚ
  deriving DecidableEq

/-- The results dict built by BatchProcessingStep.execute, lines 202-206:
successful and failed patient-id lists plus detailed_results keyed by
patient id. -/
structure BatchResults where
  successful : List String
  failed : List String
  detailed_results : List (String × PatientOutcome)
  deriving DecidableEq

/-- The body shared by both processing loops, lines 231-244 and 251-264:
a returned outcome is filed under successful or failed by its success flag;
an exception escaping the per-patient call is converted into a failure
record with the exception text, for that patient alone. -/
def recordPatient (res : BatchResults) (pid : String)
    (r : Except String PatientOutcome) : BatchResults :=
  match r with
  | .ok out =>
    { successful := if out.success then res.successful ++ [pid] else res.successful
      failed := if out.success then res.failed else res.failed ++ [pid]
      detailed_results := ctxInsert res.detailed_results pid out }
  | .error e =>
    { successful := res.successful
      failed := res.failed ++ [pid]
      detailed_results := ctxInsert res.detailed_results pid
        ⟨false, some e, none, [], none⟩ }

/-- The record an Except-valued per-patient call contributes. -/
def patientRecord (r : Except String PatientOutcome) : PatientOutcome :=
  match r with
  | .ok out => out
  | .error e => ⟨false, some e, none, [], none⟩

/-- BatchProcessingStep.execute, lines 191-270, abstracted over the
per-patient call f (its error branch is a raised exception).  Parallel mode
is used when the flag is set and there is more than one patient; results
then arrive in completion order, modelled by an explicit order list (a
permutation of the patients).  Sequential mode processes in list order. -/
def BatchProcessingStep.execute (f : WorkItem → Except String PatientOutcome)
    (parallel : Bool) (patients : List WorkItem) (order : List WorkItem) :
    BatchResults :=
  let seq := if parallel ∧ 1 < patients.length then order else patients
  seq.foldl (fun res p => recordPatient res p.patient_id (f p)) ⟨[], [], []⟩

/-! ## BatchStandardizationStep -/

/-- Default constructor arguments of NyulStandardizer. -/
def nyulDefaultPercentages : List ℚ :=
  [0, 10, 20, 30, 40, 50, 60, 70, 80, 90, 100]

/-- The training images gathered by BatchStandardizationStep.execute, lines
146-153: the T2W images of the first 20 discovered patients, in discovery
order, keeping only those whose load succeeds (a load failure is logged and
skipped). -/
def batchTrainingImages (loadImage : WorkItem → Option (List ℚ))
    (patients : List WorkItem) : List (List ℚ) :=
  (patients.take 20).filterMap loadImage

/-- BatchStandardizationStep.execute, lines 135-172: for the nyul method,
train a default NyulStandardizer on the gathered training images and return
(t2w_standardizer, standardization_trained, training_samples); any other
method returns no standardizer and standardization_trained = False. -/
def BatchStandardizationStep.execute (loadImage : WorkItem → Option (List ℚ))
    (method : String) (patients : List WorkItem) :
    Option NyulStandardizer × Bool × Nat :=
  if method = "nyul" then
    let imgs := batchTrainingImages loadImage patients
    (some ((NyulStandardizer.init nyulDefaultPercentages (0, 100)).train imgs),
      true, imgs.length)
  else
    (none, false, 0)

/-! ## BatchReportingStep -/

/-- Context values of the batch pipeline: the keys merged by the processing
step are id lists and a detailed-results dict; total_patients is a number;
a whole results dict under one key would be the batch constructor (no step
ever produces one). -/
inductive BVal where
  | strs (l : List String)
  | outcomes (l : List (String × PatientOutcome))
  | nat (n : Nat)
  | batch (r : BatchResults)
  deriving DecidableEq

/-- The partial context returned by BatchProcessingStep.execute as merged by
the engine: its three dict keys, each a separate context key. -/
def batchProcessingResult (r : BatchResults) : List (String × BVal) :=
  [("successful", .strs r.successful),
   ("failed", .strs r.failed),
   ("detailed_results", .outcomes r.detailed_results)]

/-- The summary dict written to batch_summary.json, lines 371-383 (the
timestamp and configuration echo carry no verified content and are
omitted). -/
structure BatchSummary where
  total_patients : Nat
  successful : Nat
  failed : Nat
  success_rate : ℚ
  deriving DecidableEq

/-- One row of batch_results.csv, lines 396-403. -/
structure CsvRow where
  patient_id : String
  status : String
  execution_time : Option ℚ
  outputs_saved : List String
  error : String
  deriving DecidableEq

/-- BatchReportingStep.execute, lines 359-426: batch_results is
data.get("BatchProcessingStep", an empty dict), so every count defaults
when that key is absent; the summary counts and success rate, the CSV rows
over detailed_results, and the error log (present only when the failed list
is nonempty) listing each failed patient with its error text and type. -/
def BatchReportingStep.execute (data : List (String × BVal)) :
    BatchSummary × List CsvRow × Option (List (String × String × String)) :=
  let br : BatchResults :=
    match ctxLookup data "BatchProcessingStep" with
    | some (.batch r) => r
    | _ => ⟨[], [], []⟩
  let total : Nat :=
    match ctxLookup data "total_patients" with
    | some (.nat n) => n
    | _ => 0
  let summary : BatchSummary :=
    { total_patients := total
      successful := br.successful.length
      failed := br.failed.length
      success_rate :=
        if 0 < total then (br.successful.length : ℚ) / (total : ℚ) else 0 }
  let rows : List CsvRow := br.detailed_results.map fun pr =>
    { patient_id := pr.1
      status := if pr.2.success then "Success" else "Failed"
      execution_time := pr.2.execution_time
      outputs_saved := pr.2.outputs_saved
      error := (pr.2.error).getD "" }
  let errorLog : Option (List (String × String × String)) :=
    if br.failed = [] then none
    else some (br.failed.map fun pid =>
      let out := (ctxLookup br.detailed_results pid).getD ⟨false, none, none, [], none⟩
      (pid, (out.error).getD "Unknown error", (out.error_type).getD "Unknown"))
  (summary, rows, errorLog)

/-! ## Helper lemmas -/

theorem length_colMean (rows : List (List ℚ)) (m : Nat) :
    (colMean rows m).length = m := by
  simp [colMean]

theorem foldl_set_length (f : Nat → ℚ) (idxs : List Nat) (l : List ℚ) :
    (idxs.foldl (fun acc i => acc.set i (f i)) l).length = l.length := by
  induction idxs generalizing l with
  | nil => rfl
  | cons i rest ih => rw [List.foldl_cons, ih, List.length_set]

theorem foldl_set_getD (f : Nat → ℚ) (idxs : List Nat) (l : List ℚ) (j : Nat) :
    (idxs.foldl (fun acc i => acc.set i (f i)) l).getD j 0 =
      if j ∈ idxs ∧ j < l.length then f j else l.getD j 0 := by
  induction idxs generalizing l with
  | nil => simp
  | cons i rest ih =>
    rw [List.foldl_cons, ih, List.length_set]
    by_cases hr : j ∈ rest ∧ j < l.length
    · rw [if_pos hr, if_pos ⟨List.mem_cons_of_mem _ hr.1, hr.2⟩]
    · rw [if_neg hr]
      rcases Decidable.em (j = i) with hji | hji
      · subst hji
        by_cases hlen : j < l.length
        · simp [List.getD_eq_getElem?_getD, List.getElem?_set, hlen]
        · rw [List.set_eq_of_length_le (Nat.le_of_not_lt hlen),
            if_neg (fun h => hlen h.2)]
      · rw [List.getD_eq_getElem?_getD,
          List.getElem?_set_ne (fun h => hji h.symm),
          ← List.getD_eq_getElem?_getD]
        have hno : ¬(j ∈ i :: rest ∧ j < l.length) := by
          intro h
          rcases List.mem_cons.mp h.1 with h' | h'
          · exact hji h'
          · exact hr ⟨h', h.2⟩
        rw [if_neg hno]

/-! ## C5: trained Nyul landmarks are forced to the target range -/

/-- C5: after NyulStandardizer.train on a non-empty training list with at
least two strictly increasing landmark percentiles, the stored standard
landmark vector has landmark 0 equal to the low target bound, landmark n
equal to the high bound, and every interior landmark i equal to
lo + (hi - lo) * i / n, whatever the averaged percentile intensities of the
training images were. -/
theorem nyulOverride_getD (avg : List ℚ) (lo hi : ℚ) (m : Nat)
    (hlen : avg.length = m) (hm : 2 ≤ m) :
    (nyulOverrideLandmarks avg lo hi m).length = m ∧
    (nyulOverrideLandmarks avg lo hi m).getD 0 0 = lo ∧
    (nyulOverrideLandmarks avg lo hi m).getD (m - 1) 0 = hi ∧
    ∀ i, 0 < i → i < m - 1 →
      (nyulOverrideLandmarks avg lo hi m).getD i 0 =
        lo + (hi - lo) * ((i : ℚ) / ((m : ℚ) - 1)) := by
  have h10 : (1 : Nat) ≤ m - 1 := by omega
  have hm0 : 0 < m := by omega
  simp only [nyulOverrideLandmarks]
  refine ⟨?_, ?_, ?_, ?_⟩
  · rw [foldl_set_length]
    simp [hlen]
  · have h0 : (0 : Nat) ∉ List.range' 1 (m - 1 - 1) := by
      intro h
      rcases List.mem_range'.mp h with ⟨i, _, he⟩
      omega
    rw [foldl_set_getD, if_neg (fun h => h0 h.1)]
    have hlt0 : 0 < avg.length := by omega
    have hne1 : (avg.set 0 lo).length - 1 ≠ 0 := by
      simp only [List.length_set, hlen]
      omega
    rw [List.getD_eq_getElem?_getD, List.getElem?_set_ne hne1,
      List.getElem?_set_self hlt0]
    rfl
  · have h1 : (m - 1) ∉ List.range' 1 (m - 1 - 1) := by
      intro h
      rcases List.mem_range'.mp h with ⟨i, hi, he⟩
      omega
    rw [foldl_set_getD, if_neg (fun h => h1 h.1)]
    simp [List.getD_eq_getElem?_getD, List.getElem?_set, hlen, h10, hm0,
      Nat.sub_lt hm0]
  · intro i h0i him
    have hmem : i ∈ List.range' 1 (m - 1 - 1) :=
      List.mem_range'.mpr ⟨i - 1, by omega, by omega⟩
    have hilt : i < ((avg.set 0 lo).set ((avg.set 0 lo).length - 1) hi).length := by
      simp [hlen]
      omega
    rw [foldl_set_getD, if_pos ⟨hmem, hilt⟩]

/-- C5: after NyulStandardizer.train on a non-empty training list with at
least two strictly increasing landmark percentiles, the stored standard
landmark vector has landmark 0 equal to the low target bound, landmark n
equal to the high bound, and every interior landmark i equal to
lo + (hi - lo) * i / n, whatever the averaged percentile intensities of the
training images were. -/
theorem nyul_train_landmarks_evenly_spaced (lmPct : List ℚ) (lo hi : ℚ)
    (images : List (List ℚ)) (_hne : images ≠ []) (hn : 2 ≤ lmPct.length)
    (_hinc : lmPct.Chain' (· < ·)) :
    ((NyulStandardizer.init lmPct (lo, hi)).train images).standard_landmarks =
      some (nyulTrainedLandmarks lmPct lo hi images) ∧
    (nyulTrainedLandmarks lmPct lo hi images).length = lmPct.length ∧
    (nyulTrainedLandmarks lmPct lo hi images).getD 0 0 = lo ∧
    (nyulTrainedLandmarks lmPct lo hi images).getD (lmPct.length - 1) 0 = hi ∧
    ∀ i, 0 < i → i < lmPct.length - 1 →
      (nyulTrainedLandmarks lmPct lo hi images).getD i 0 =
        lo + (hi - lo) * ((i : ℚ) / ((lmPct.length : ℚ) - 1)) := by
  have h := nyulOverride_getD
    (colMean (images.map (imageLandmarks lmPct)) lmPct.length) lo hi
    lmPct.length (length_colMean _ _) hn
  exact ⟨rfl, h.1, h.2.1, h.2.2.1, h.2.2.2⟩

/-- Witness for C5 at landmarks [0, 50, 100], target range (0, 100), one
training image [1, 2, 3]: the trained landmark vector is [0, 50, 100]. -/
theorem nyul_train_landmarks_evenly_spaced_witness :
    ([[(1 : ℚ), 2, 3]] ≠ ([] : List (List ℚ))) ∧
    2 ≤ ([0, 50, 100] : List ℚ).length ∧
    ([0, 50, 100] : List ℚ).Chain' (· < ·) ∧
    (nyulTrainedLandmarks [0, 50, 100] 0 100 [[1, 2, 3]]).getD 0 0 = 0 ∧
    (nyulTrainedLandmarks [0, 50, 100] 0 100 [[1, 2, 3]]).getD 1 0 =
      0 + (100 - 0) * ((1 : ℚ) / ((3 : ℚ) - 1)) ∧
    (nyulTrainedLandmarks [0, 50, 100] 0 100 [[1, 2, 3]]).getD 2 0 = 100 := by
  have h := nyul_train_landmarks_evenly_spaced [0, 50, 100] 0 100 [[1, 2, 3]]
    (by decide) (by decide) (by norm_num [List.chain'_cons])
  exact ⟨by decide, by decide, by norm_num [List.chain'_cons], h.2.2.1,
    h.2.2.2.2 1 (by decide) (by decide), h.2.2.2.1⟩

/-! ## C3 and C4: engine failure handling -/

/-- C3: in a 3-step pipeline where step 1 succeeds and step 2 raises,
executing with continue_on_error = false records exactly the two outcomes
step 1 success and step 2 failed, sets the pipeline status to failed and
surfaces the failure; the run is identical to the run of the pipeline
without step 3, so step 3 never executes. -/
theorem pipeline_aborts_on_step_failure {V : Type} (s1 s2 s3 : PStep V)
    (input r1 : List (String × V)) (e : String)
    (h12 : s1.name ≠ s2.name)
    (hv1 : s1.validate input = true)
    (hr1 : s1.run input = .ok r1)
    (hv2 : s2.validate (ctxUpdate input r1) = true)
    (hr2 : s2.run (ctxUpdate input r1) = .error e) :
    BasePipeline.execute [s1, s2, s3] input false =
      ([(s1.name, ⟨some r1, "success", none⟩),
        (s2.name, ⟨none, "failed", some e⟩)],
        "failed", some e, ctxUpdate input r1) ∧
    BasePipeline.execute [s1, s2, s3] input false =
      BasePipeline.execute [s1, s2] input false := by
  constructor
  · simp [BasePipeline.execute, runSteps, hv1, hr1, hv2, hr2, ctxInsert, h12]
  · simp [BasePipeline.execute, runSteps, hv1, hr1, hv2, hr2]

/-- Witness for C3: concrete 3-step pipeline over V = Nat in which step 2
raises "boom". -/
theorem pipeline_aborts_on_step_failure_witness :
    BasePipeline.execute
      [⟨"step1", fun _ => true, fun _ => .ok [("a", (1 : Nat))]⟩,
       ⟨"step2", fun _ => true, fun _ => .error "boom"⟩,
       ⟨"step3", fun _ => true, fun _ => .ok [("c", 3)]⟩] [] false =
      ([("step1", ⟨some [("a", 1)], "success", none⟩),
        ("step2", ⟨none, "failed", some "boom"⟩)],
        "failed", some "boom", [("a", 1)]) := by
  have h := pipeline_aborts_on_step_failure
    (V := Nat)
    ⟨"step1", fun _ => true, fun _ => .ok [("a", 1)]⟩
    ⟨"step2", fun _ => true, fun _ => .error "boom"⟩
    ⟨"step3", fun _ => true, fun _ => .ok [("c", 3)]⟩
    [] [("a", 1)] "boom" (by decide) rfl rfl rfl rfl
  simpa [ctxUpdate, ctxInsert] using h.1

/-- C4: same pipeline with continue_on_error = true records all three
outcomes, step 2 marked failed and steps 1 and 3 marked success, and step 3
runs on the context produced by step 1 alone (no key of the failed step 2
is merged: its result never materialized). -/
theorem pipeline_continue_on_error_runs_all {V : Type} (s1 s2 s3 : PStep V)
    (input r1 r3 : List (String × V)) (e : String)
    (h12 : s1.name ≠ s2.name) (h13 : s1.name ≠ s3.name) (h23 : s2.name ≠ s3.name)
    (hv1 : s1.validate input = true)
    (hr1 : s1.run input = .ok r1)
    (hv2 : s2.validate (ctxUpdate input r1) = true)
    (hr2 : s2.run (ctxUpdate input r1) = .error e)
    (hv3 : s3.validate (ctxUpdate input r1) = true)
    (hr3 : s3.run (ctxUpdate input r1) = .ok r3) :
    BasePipeline.execute [s1, s2, s3] input true =
      ([(s1.name, ⟨some r1, "success", none⟩),
        (s2.name, ⟨none, "failed", some e⟩),
        (s3.name, ⟨some r3, "success", none⟩)],
        "completed", none, ctxUpdate (ctxUpdate input r1) r3) := by
  simp [BasePipeline.execute, runSteps, hv1, hr1, hv2, hr2, hv3, hr3,
    ctxInsert, h12, h13, h23]

/-- Witness for C4: the same concrete pipeline with continue_on_error =
true records three outcomes and step 3 sees only the key of step 1. -/
theorem pipeline_continue_on_error_runs_all_witness :
    BasePipeline.execute
      [⟨"step1", fun _ => true, fun _ => .ok [("a", (1 : Nat))]⟩,
       ⟨"step2", fun _ => true, fun _ => .error "boom"⟩,
       ⟨"step3", fun _ => true, fun _ => .ok [("c", 3)]⟩] [] true =
      ([("step1", ⟨some [("a", 1)], "success", none⟩),
        ("step2", ⟨none, "failed", some "boom"⟩),
        ("step3", ⟨some [("c", 3)], "success", none⟩)],
        "completed", none, [("a", 1), ("c", 3)]) := by
  have h := pipeline_continue_on_error_runs_all
    (V := Nat)
    ⟨"step1", fun _ => true, fun _ => .ok [("a", 1)]⟩
    ⟨"step2", fun _ => true, fun _ => .error "boom"⟩
    ⟨"step3", fun _ => true, fun _ => .ok [("c", 3)]⟩
    [] [("a", 1)] [("c", 3)] "boom"
    (by decide) (by decide) (by decide) rfl rfl rfl rfl rfl rfl
  simpa [ctxUpdate, ctxInsert] using h

/-! ## C6: the Nyul piecewise-linear voxel mapping -/

theorem range_foldl_overwrite_of_unique (c : Nat → Prop) [DecidablePred c]
    (val : Nat → ℚ) (m : Nat) (a : ℚ) (i₀ : Nat) (h₀ : i₀ < m) (hc : c i₀)
    (huniq : ∀ j, j < m → c j → j = i₀) :
    (List.range m).foldl (fun acc i => if c i then val i else acc) a = val i₀ := by
  induction m with
  | zero => omega
  | succ n ih =>
    rw [List.range_succ, List.foldl_append, List.foldl_cons, List.foldl_nil]
    by_cases hn : c n
    · have hni : n = i₀ := huniq n (Nat.lt_succ_self n) hn
      subst hni
      rw [if_pos hn]
    · rw [if_neg hn]
      have hi₀n : i₀ < n := by
        rcases Nat.lt_succ_iff_lt_or_eq.mp h₀ with h | h
        · exact h
        · exact absurd (h ▸ hc) hn
      exact ih hi₀n (fun j hj hcj => huniq j (Nat.lt_succ_of_lt hj) hcj)

theorem range_foldl_overwrite_of_none (c : Nat → Prop) [DecidablePred c]
    (val : Nat → ℚ) (m : Nat) (a : ℚ) (h : ∀ j, j < m → ¬c j) :
    (List.range m).foldl (fun acc i => if c i then val i else acc) a = a := by
  induction m with
  | zero => rfl
  | succ n ih =>
    rw [List.range_succ, List.foldl_append, List.foldl_cons, List.foldl_nil,
      if_neg (h n (Nat.lt_succ_self n))]
    exact ih (fun j hj => h j (Nat.lt_succ_of_lt hj))

theorem chain'_le_getD (l : List ℚ) (h : l.Chain' (· ≤ ·)) (i j : Nat)
    (hij : i ≤ j) (hj : j < l.length) : l.getD i 0 ≤ l.getD j 0 := by
  have hi : i < l.length := lt_of_le_of_lt hij hj
  rw [List.getD_eq_getElem?_getD, List.getD_eq_getElem?_getD,
    List.getElem?_eq_getElem hi, List.getElem?_eq_getElem hj]
  simp only [Option.getD_some]
  rcases Nat.lt_or_ge i j with hlt | hge
  · exact List.pairwise_iff_getElem.mp (List.chain'_iff_pairwise.mp h) i j hi hj hlt
  · have heq : i = j := le_antisymm hij hge
    subst heq
    exact le_refl _

theorem getLastD_eq_getD_length_sub_one (l : List ℚ) :
    l.getLastD 0 = l.getD (l.length - 1) 0 := by
  rw [List.getLastD_eq_getLast?, List.getLast?_eq_getElem?,
    List.getD_eq_getElem?_getD]

/-- C6: per-voxel behaviour of NyulStandardizer.transform.  With src the
percentile landmarks recomputed from the input image (assumed sorted, as
percentiles of one distribution are): the transformed image is the voxelwise
map; a voxel in a non-degenerate source interval gets the piecewise-linear
image of that interval; a voxel at or above the top source landmark gets the
top standard landmark; a nonzero voxel covered by no interval mask stays at
the initialized 0 (in particular one falling only in degenerate intervals);
and a zero voxel is 0 in the output, unconditionally. -/
theorem nyul_transform_voxel_cases (lmPct std img src : List ℚ)
    (hsrc : src = imageLandmarks lmPct img)
    (hmono : src.Chain' (· ≤ ·)) :
    (nyulTransformArray lmPct std img = img.map (nyulTransformVoxel src std)) ∧
    (∀ v i, i + 1 < src.length → src.getD i 0 ≤ v → v < src.getD (i + 1) 0 →
      v ≠ 0 →
      nyulTransformVoxel src std v =
        std.getD i 0 + (std.getD (i + 1) 0 - std.getD i 0) /
          (src.getD (i + 1) 0 - src.getD i 0) * (v - src.getD i 0)) ∧
    (∀ v, src.getLastD 0 ≤ v → v ≠ 0 →
      nyulTransformVoxel src std v = std.getLastD 0) ∧
    (∀ v, v ≠ 0 → ¬src.getLastD 0 ≤ v →
      (∀ i, i + 1 < src.length → ¬(src.getD i 0 ≤ v ∧ v < src.getD (i + 1) 0)) →
      nyulTransformVoxel src std v = 0) ∧
    (∀ k, k < img.length → img.getD k 0 = 0 →
      (nyulTransformArray lmPct std img).getD k 0 = 0) := by
  subst hsrc
  set src := imageLandmarks lmPct img with hsrc
  refine ⟨rfl, ?_, ?_, ?_, ?_⟩
  · intro v i hi1 hlo hhi hv0
    have hlt : src.getD i 0 < src.getD (i + 1) 0 := lt_of_le_of_lt hlo hhi
    have hnotlast : ¬src.getLastD 0 ≤ v := by
      rw [getLastD_eq_getD_length_sub_one]
      exact not_le.mpr (lt_of_lt_of_le hhi
        (chain'_le_getD src hmono (i + 1) (src.length - 1) (by omega) (by omega)))
    simp only [nyulTransformVoxel, if_neg hv0, if_neg hnotlast]
    refine range_foldl_overwrite_of_unique
      (fun j => src.getD j 0 ≤ v ∧ v < src.getD (j + 1) 0 ∧
        src.getD j 0 < src.getD (j + 1) 0)
      (fun j => std.getD j 0 + (std.getD (j + 1) 0 - std.getD j 0) /
        (src.getD (j + 1) 0 - src.getD j 0) * (v - src.getD j 0))
      (src.length - 1) 0 i (by omega) ⟨hlo, hhi, hlt⟩ ?_
    · intro j hj hcj
      rcases Nat.lt_trichotomy j i with hlt' | heq | hgt
      · have hle : src.getD (j + 1) 0 ≤ v :=
          le_trans (chain'_le_getD src hmono (j + 1) i (by omega) (by omega)) hlo
        exact absurd hcj.2.1 (not_lt.mpr hle)
      · exact heq
      · exact absurd hcj.1 (not_le.mpr (lt_of_lt_of_le hhi
          (chain'_le_getD src hmono (i + 1) j (by omega) (by omega))))
  · intro v hle hv0
    simp only [nyulTransformVoxel, if_neg hv0, if_pos hle]
  · intro v hv0 hnotlast hnone
    simp only [nyulTransformVoxel, if_neg hv0, if_neg hnotlast]
    exact range_foldl_overwrite_of_none _ _ _ _
      (fun j hj hcj => hnone j (by omega) ⟨hcj.1, hcj.2.1⟩)
  · intro k hk h0
    simp only [nyulTransformArray, List.getD_eq_getElem?_getD, List.getElem?_map,
      List.getElem?_eq_getElem hk]
    have hk0 : img[k] = 0 := by
      rw [← h0, List.getD_eq_getElem?_getD, List.getElem?_eq_getElem hk]
      rfl
    simp [hk0, nyulTransformVoxel]

/-- Witness for C6 on image [4, 1, 3, 0] with landmarks [0, 50, 100] and
standard landmarks [0, 50, 100]: the image landmark vector is [1, 3, 4];
voxel 2 (inside [1, 3)) maps to 25, voxel 7 (above the top landmark 4) maps
to 100, and the zero voxel at index 3 maps to 0. -/
theorem nyul_transform_voxel_cases_witness :
    imageLandmarks [0, 50, 100] [4, 1, 3, 0] = [1, 3, 4] ∧
    List.Chain' (· ≤ ·) (imageLandmarks [0, 50, 100] [4, 1, 3, 0]) ∧
    nyulTransformVoxel (imageLandmarks [0, 50, 100] [4, 1, 3, 0]) [0, 50, 100] 2 = 25 ∧
    nyulTransformVoxel (imageLandmarks [0, 50, 100] [4, 1, 3, 0]) [0, 50, 100] 7 = 100 ∧
    (nyulTransformArray [0, 50, 100] [0, 50, 100] [4, 1, 3, 0]).getD 3 0 = 0 := by
  have heval : imageLandmarks [0, 50, 100] [4, 1, 3, 0] = [1, 3, 4] := by
    norm_num [imageLandmarks, npPercentile, List.insertionSort, List.orderedInsert,
      Int.toNat]
  have hmono : List.Chain' (· ≤ ·) (imageLandmarks [0, 50, 100] [4, 1, 3, 0]) := by
    rw [heval]
    norm_num [List.chain'_cons]
  have h := nyul_transform_voxel_cases [0, 50, 100] [0, 50, 100] [4, 1, 3, 0]
    (imageLandmarks [0, 50, 100] [4, 1, 3, 0]) rfl hmono
  refine ⟨heval, hmono, ?_, ?_, ?_⟩
  · have h2 := h.2.1 2 0 (by rw [heval]; decide) (by rw [heval]; decide)
      (by rw [heval]; decide) (by decide)
    rw [h2, heval]
    norm_num [List.getD]
  · have h3 := h.2.2.1 7 (by rw [heval]; decide) (by decide)
    rw [h3]
    decide
  · exact h.2.2.2.2 3 (by decide) (by decide)

/-! ## C7: the z-score transform -/

/-- C7: ZScoreStandardizer.transform outputs (value - center)/(scale + 1e-8)
for every non-background voxel and 0 for background voxels; a trained model
uses the stored global statistics, an untrained model computes them from the
input image's non-background voxels and returns normally (no error), using
median and 1.4826 * MAD under the robust flag and mean and np.std
otherwise. -/
theorem zscore_transform_spec (sqrtFn : ℚ → ℚ) (robust : Bool) (c sd : ℚ)
    (mo so : Option ℚ) (img vals : List ℚ) (k : Nat) (hk : k < img.length) :
    (ZScoreStandardizer.transform sqrtFn ⟨robust, true, some c, some sd⟩ img =
      .ok (img.map fun v => if 0 < v then (v - c) / (sd + 1 / 100000000) else 0)) ∧
    ((img.map fun v => if 0 < v then (v - c) / (sd + 1 / 100000000) else 0).getD k 0 =
      if 0 < img.getD k 0 then (img.getD k 0 - c) / (sd + 1 / 100000000) else 0) ∧
    (ZScoreStandardizer.transform sqrtFn ⟨robust, false, mo, so⟩ img =
      .ok (img.map fun v =>
        if 0 < v then
          (v - (zscorePerImageStats sqrtFn robust (img.filter fun w => 0 < w)).1) /
            ((zscorePerImageStats sqrtFn robust (img.filter fun w => 0 < w)).2 +
              1 / 100000000)
        else 0)) ∧
    (zscorePerImageStats sqrtFn true vals =
      (npMedian vals,
        npMedian (vals.map fun x => |x - npMedian vals|) * (14826 / 10000))) ∧
    (zscorePerImageStats sqrtFn false vals = (npMean vals, sqrtFn (npVariance vals))) := by
  refine ⟨rfl, ?_, rfl, rfl, rfl⟩
  rw [List.getD_eq_getElem?_getD, List.getElem?_map, List.getElem?_eq_getElem hk,
    List.getD_eq_getElem?_getD, List.getElem?_eq_getElem hk]
  rfl

/-- Witness for C7: a trained model with center 1 and scale 2 on the image
[3, 0] maps the nonzero voxel 3 to (3 - 1)/(2 + 1e-8). -/
theorem zscore_transform_spec_witness :
    (0 : Nat) < ([3, 0] : List ℚ).length ∧
    (ZScoreStandardizer.transform (fun q => q) ⟨true, true, some 1, some 2⟩ [3, 0] =
      .ok (([3, 0] : List ℚ).map fun v =>
        if 0 < v then (v - 1) / (2 + 1 / 100000000) else 0)) ∧
    (([3, 0] : List ℚ).map fun v =>
      if 0 < v then (v - 1) / (2 + 1 / 100000000) else 0).getD 0 0 =
      (3 - 1) / (2 + 1 / 100000000) := by
  have h := zscore_transform_spec (fun q => q) true 1 2 none none [3, 0] [1, 2] 0
    (by decide)
  refine ⟨by decide, h.1, ?_⟩
  rw [h.2.1]
  norm_num

/-! ## C1: save/load round-trip -/

/-- C1 fails on the code: for every trained Nyul standardizer,
save_parameters followed by load_parameters on a fresh instance reproduces
the parameter dict and sets trained, but leaves standard_landmarks = None,
so transform on the reloaded model raises a TypeError instead of
reproducing the original transform output (which exists: the original
trained model's transform returns ok). -/
theorem nyul_save_load_roundtrip_breaks_transform (lmPct : List ℚ)
    (scale : ℚ × ℚ) (images : List (List ℚ)) (img : List ℚ) :
    (((NyulStandardizer.init lmPct scale).train images).transform img).isOk = true ∧
    ((NyulStandardizer.init lmPct scale).load_parameters
        (((NyulStandardizer.init lmPct scale).train images).save_parameters)).trained
      = true ∧
    ((NyulStandardizer.init lmPct scale).load_parameters
        (((NyulStandardizer.init lmPct scale).train images).save_parameters)).parameters
      = ((NyulStandardizer.init lmPct scale).train images).parameters ∧
    ((NyulStandardizer.init lmPct scale).load_parameters
        (((NyulStandardizer.init lmPct scale).train images).save_parameters)).standard_landmarks
      = none ∧
    ((NyulStandardizer.init lmPct scale).load_parameters
        (((NyulStandardizer.init lmPct scale).train images).save_parameters)).transform img
      = .error "TypeError: NoneType object is not subscriptable" :=
  ⟨rfl, rfl, rfl, rfl, rfl⟩

/-! ## C10: standardization trains on at most the first 20 patients -/

/-- C10: with the nyul method the batch standardization step trains the
shared standardizer on the loadable T2W images of at most the first 20
discovered patients, in discovery order; load failures are skipped (the
step still returns normally with the standardizer trained on the others). -/
theorem batch_standardization_trains_on_first_twenty
    (loadImage : WorkItem → Option (List ℚ)) (patients : List WorkItem) :
    BatchStandardizationStep.execute loadImage "nyul" patients =
      (some ((NyulStandardizer.init nyulDefaultPercentages (0, 100)).train
          (batchTrainingImages loadImage patients)), true,
        (batchTrainingImages loadImage patients).length) ∧
    batchTrainingImages loadImage patients = (patients.take 20).filterMap loadImage ∧
    (batchTrainingImages loadImage patients).length ≤ 20 ∧
    (batchTrainingImages loadImage patients).length ≤ patients.length ∧
    (∀ imgv ∈ batchTrainingImages loadImage patients,
      ∃ p ∈ patients.take 20, loadImage p = some imgv) := by
  refine ⟨rfl, rfl, ?_, ?_, ?_⟩
  · exact le_trans (List.length_filterMap_le _ _)
      (le_trans (le_of_eq (List.length_take 20 patients)) (Nat.min_le_left _ _))
  · exact le_trans (List.length_filterMap_le _ _)
      (le_trans (le_of_eq (List.length_take 20 patients)) (Nat.min_le_right _ _))
  · intro imgv h
    exact List.mem_filterMap.mp h

/-! ## C8: per-item isolation in batch processing -/

theorem batch_foldl_detailed (f : WorkItem → Except String PatientOutcome)
    (seq : List WorkItem) (acc : BatchResults) :
    (seq.foldl (fun res p => recordPatient res p.patient_id (f p)) acc).detailed_results
      = seq.foldl
          (fun d p => ctxInsert d p.patient_id (patientRecord (f p)))
          acc.detailed_results := by
  induction seq generalizing acc with
  | nil => rfl
  | cons p rest ih =>
    rw [List.foldl_cons, List.foldl_cons, ih]
    congr 1
    cases hf : f p with
    | ok out => simp [recordPatient, patientRecord, hf]
    | error e => simp [recordPatient, patientRecord, hf]

theorem ctxInsert_eq_append {V : Type} (d : List (String × V)) (k : String) (v : V)
    (h : ∀ kv ∈ d, kv.1 ≠ k) : ctxInsert d k v = d ++ [(k, v)] := by
  induction d with
  | nil => rfl
  | cons kv rest ih =>
    obtain ⟨k', v'⟩ := kv
    rw [ctxInsert, if_neg (h (k', v') (List.mem_cons_self _ _)),
      ih (fun kv' h' => h kv' (List.mem_cons_of_mem _ h'))]
    rfl

theorem foldl_ctxInsert_detailed (f : WorkItem → Except String PatientOutcome)
    (seq : List WorkItem) (d : List (String × PatientOutcome))
    (hdisj : ∀ p ∈ seq, ∀ kv ∈ d, kv.1 ≠ p.patient_id)
    (hnd : (seq.map (·.patient_id)).Nodup) :
    seq.foldl (fun d p => ctxInsert d p.patient_id (patientRecord (f p))) d =
      d ++ seq.map (fun p => (p.patient_id, patientRecord (f p))) := by
  induction seq generalizing d with
  | nil => simp
  | cons p rest ih =>
    rw [List.foldl_cons,
      ctxInsert_eq_append d _ _ (fun kv hkv => hdisj p (List.mem_cons_self _ _) kv hkv)]
    have hpid : p.patient_id ∉ rest.map (·.patient_id) := by
      have := List.nodup_cons.mp hnd
      simpa using this.1
    rw [ih (d ++ [(p.patient_id, patientRecord (f p))]) ?_ (List.nodup_cons.mp hnd).2]
    · simp
    · intro q hq kv hkv
      rcases List.mem_append.mp hkv with hkv | hkv
      · exact hdisj q (List.mem_cons_of_mem _ hq) kv hkv
      · rcases List.mem_singleton.mp hkv with rfl
        intro hcontra
        have hpq : p.patient_id = q.patient_id := hcontra
        exact hpid (by rw [hpq]; exact List.mem_map_of_mem (·.patient_id) hq)

theorem batch_detailed_eq (f : WorkItem → Except String PatientOutcome)
    (seq : List WorkItem) (hnd : (seq.map (·.patient_id)).Nodup) :
    (seq.foldl (fun res p => recordPatient res p.patient_id (f p))
        (⟨[], [], []⟩ : BatchResults)).detailed_results
      = seq.map fun p => (p.patient_id, patientRecord (f p)) := by
  rw [batch_foldl_detailed]
  simpa using foldl_ctxInsert_detailed f seq [] (by simp) hnd

theorem ctxLookup_map_pid (g : WorkItem → PatientOutcome) (seq : List WorkItem)
    (q : WorkItem) (hq : q ∈ seq) (hnd : (seq.map (·.patient_id)).Nodup) :
    ctxLookup (seq.map fun p => (p.patient_id, g p)) q.patient_id = some (g q) := by
  induction seq with
  | nil => cases hq
  | cons p rest ih =>
    rw [List.map_cons, ctxLookup]
    rcases List.mem_cons.mp hq with rfl | hq'
    · rw [if_pos rfl]
    · have hpid : p.patient_id ∉ rest.map (·.patient_id) := by
        have := List.nodup_cons.mp hnd
        simpa using this.1
      have hne : p.patient_id ≠ q.patient_id := by
        intro hcontra
        exact hpid (hcontra ▸ List.mem_map_of_mem (·.patient_id) hq')
      rw [if_neg hne]
      exact ih hq' (List.nodup_cons.mp hnd).2

/-- C8: every work item yields exactly one outcome in detailed_results, an
exception raised while processing one item is converted into a failure
record for that item alone (the batch function itself returns normally),
and every other item's record is exactly the outcome of its own processing
call, in parallel mode (any completion order) as in sequential mode. -/
theorem batch_processing_per_item_isolation
    (f : WorkItem → Except String PatientOutcome) (parallel : Bool)
    (patients order : List WorkItem)
    (hperm : order.Perm patients)
    (hnd : (patients.map (·.patient_id)).Nodup) :
    (BatchProcessingStep.execute f parallel patients order).detailed_results.length
      = patients.length ∧
    (∀ p ∈ patients,
      ctxLookup (BatchProcessingStep.execute f parallel patients order).detailed_results
        p.patient_id = some (patientRecord (f p))) ∧
    (∀ p ∈ patients,
      ((BatchProcessingStep.execute f parallel patients order).detailed_results.map
        Prod.fst).count p.patient_id = 1) ∧
    (∀ p ∈ patients, ∀ e, f p = .error e →
      ctxLookup (BatchProcessingStep.execute f parallel patients order).detailed_results
        p.patient_id = some ⟨false, some e, none, [], none⟩) := by
  have key : ∀ seq : List WorkItem, seq.Perm patients →
      (seq.foldl (fun res p => recordPatient res p.patient_id (f p))
          (⟨[], [], []⟩ : BatchResults)).detailed_results.length = patients.length ∧
      (∀ p ∈ patients,
        ctxLookup (seq.foldl (fun res p => recordPatient res p.patient_id (f p))
            (⟨[], [], []⟩ : BatchResults)).detailed_results p.patient_id
          = some (patientRecord (f p))) ∧
      (∀ p ∈ patients,
        ((seq.foldl (fun res p => recordPatient res p.patient_id (f p))
            (⟨[], [], []⟩ : BatchResults)).detailed_results.map Prod.fst).count
          p.patient_id = 1) ∧
      (∀ p ∈ patients, ∀ e, f p = .error e →
        ctxLookup (seq.foldl (fun res p => recordPatient res p.patient_id (f p))
            (⟨[], [], []⟩ : BatchResults)).detailed_results p.patient_id
          = some ⟨false, some e, none, [], none⟩) := by
    intro seq hp
    have hnd' : (seq.map (·.patient_id)).Nodup :=
      ((hp.map (·.patient_id)).nodup_iff).mpr hnd
    have hd := batch_detailed_eq f seq hnd'
    have hlook : ∀ p ∈ patients,
        ctxLookup (seq.foldl (fun res p => recordPatient res p.patient_id (f p))
            (⟨[], [], []⟩ : BatchResults)).detailed_results p.patient_id
          = some (patientRecord (f p)) := by
      intro p hmem
      rw [hd]
      exact ctxLookup_map_pid (fun p => patientRecord (f p)) seq p
        (hp.mem_iff.mpr hmem) hnd'
    refine ⟨?_, hlook, ?_, ?_⟩
    · rw [hd, List.length_map, hp.length_eq]
    · intro p hmem
      rw [hd, List.map_map]
      have hcomp : (Prod.fst ∘ fun p : WorkItem => (p.patient_id, patientRecord (f p)))
          = fun p : WorkItem => p.patient_id := rfl
      rw [hcomp]
      exact List.count_eq_one_of_mem hnd'
        (List.mem_map_of_mem (·.patient_id) (hp.mem_iff.mpr hmem))
    · intro p hmem e he
      have := hlook p hmem
      rw [he] at this
      exact this
  simp only [BatchProcessingStep.execute]
  by_cases hpar : parallel ∧ 1 < patients.length
  · rw [if_pos hpar]
    exact key order hperm
  · rw [if_neg hpar]
    exact key patients (List.Perm.refl _)

/-- Witness for C8: two patients where processing of p1 raises "disk full"
while p2 succeeds; p1 alone gets a failure record, p2 keeps its success
record, both in the sequential and (trivial one-ordering) parallel sense. -/
theorem batch_processing_per_item_isolation_witness :
    (([⟨"p2", "t2", "adc"⟩, ⟨"p1", "t1", "adc1"⟩] : List WorkItem).Perm
      [⟨"p1", "t1", "adc1"⟩, ⟨"p2", "t2", "adc"⟩]) ∧
    ((([⟨"p1", "t1", "adc1"⟩, ⟨"p2", "t2", "adc"⟩] : List WorkItem).map
      (·.patient_id)).Nodup) ∧
    ctxLookup (BatchProcessingStep.execute
        (fun p => if p.patient_id = "p1" then .error "disk full"
          else .ok ⟨true, none, none, ["t2w_standardized"], some 1⟩)
        true [⟨"p1", "t1", "adc1"⟩, ⟨"p2", "t2", "adc"⟩]
        [⟨"p2", "t2", "adc"⟩, ⟨"p1", "t1", "adc1"⟩]).detailed_results "p1"
      = some ⟨false, some "disk full", none, [], none⟩ ∧
    ctxLookup (BatchProcessingStep.execute
        (fun p => if p.patient_id = "p1" then .error "disk full"
          else .ok ⟨true, none, none, ["t2w_standardized"], some 1⟩)
        true [⟨"p1", "t1", "adc1"⟩, ⟨"p2", "t2", "adc"⟩]
        [⟨"p2", "t2", "adc"⟩, ⟨"p1", "t1", "adc1"⟩]).detailed_results "p2"
      = some ⟨true, none, none, ["t2w_standardized"], some 1⟩ := by
  have hperm : (([⟨"p2", "t2", "adc"⟩, ⟨"p1", "t1", "adc1"⟩] : List WorkItem).Perm
      [⟨"p1", "t1", "adc1"⟩, ⟨"p2", "t2", "adc"⟩]) := by
    exact List.Perm.swap _ _ _
  have h := batch_processing_per_item_isolation
    (fun p => if p.patient_id = "p1" then .error "disk full"
      else .ok ⟨true, none, none, ["t2w_standardized"], some 1⟩)
    true [⟨"p1", "t1", "adc1"⟩, ⟨"p2", "t2", "adc"⟩]
    [⟨"p2", "t2", "adc"⟩, ⟨"p1", "t1", "adc1"⟩] hperm (by decide)
  refine ⟨hperm, by decide, ?_, ?_⟩
  · have h1 := h.2.2.2 ⟨"p1", "t1", "adc1"⟩ (by decide) "disk full" rfl
    exact h1
  · have h2 := h.2.1 ⟨"p2", "t2", "adc"⟩ (by simp)
    simpa [patientRecord] using h2

/-! ## C9: patient discovery -/

theorem globCandidates_ne_nil (d : DirEntry) (sfx : String) :
    globCandidates d sfx ≠ [] ↔ ∃ f ∈ d.files, strEndsWith f sfx = true := by
  rw [globCandidates, Ne, List.filter_eq_nil_iff]
  push_neg
  simp

theorem discoverDir_isSome (d : DirEntry) :
    (discoverDir d).isSome = dirIncluded d := by
  cases hb : d.isDir with
  | false => simp [discoverDir, dirIncluded, hb]
  | true =>
    cases hs : strStartsWith d.name "." with
    | true => simp [discoverDir, dirIncluded, hb, hs]
    | false => simp [discoverDir, dirIncluded, hb, hs]

theorem discoverDir_pid (d : DirEntry) (w : WorkItem)
    (h : discoverDir d = some w) : w.patient_id = d.name := by
  rw [discoverDir] at h
  by_cases h1 : d.isDir = false
  · rw [if_pos h1] at h
    exact Option.noConfusion h
  · rw [if_neg h1] at h
    by_cases h2 : strStartsWith d.name "." = true
    · rw [if_pos h2] at h
      exact Option.noConfusion h
    · rw [if_neg h2] at h
      rcases Option.map_eq_some'.mp h with ⟨p, _, hw⟩
      rw [← hw]

theorem discovery_pid_mem (root : List DirEntry) (w : WorkItem)
    (hw : w ∈ PatientDiscoveryStep.execute root) :
    w.patient_id ∈ root.map (·.name) := by
  rcases List.mem_filterMap.mp hw with ⟨d, hd, he⟩
  rw [discoverDir_pid d w he]
  exact List.mem_map_of_mem (·.name) hd

theorem findModalityPaths_isSome_iff (d : DirEntry) :
    (findModalityPaths d).isSome = true ↔
      ((∃ pat ∈ discoveryPatterns,
          (∃ f ∈ d.files, strEndsWith f pat.1 = true) ∧
          (∃ f ∈ d.files, strEndsWith f pat.2 = true)) ∨
        (d.files.contains (d.name ++ "_t2w.nii.gz") = true ∧
          d.files.contains (d.name ++ "_adc.nii.gz") = true)) := by
  have hpat : ∀ pat : String × String,
      (match globCandidates d pat.1, globCandidates d pat.2 with
        | t :: _, a :: _ => some (t, a)
        | _, _ => (none : Option (String × String))).isSome = true ↔
        ((∃ f ∈ d.files, strEndsWith f pat.1 = true) ∧
          (∃ f ∈ d.files, strEndsWith f pat.2 = true)) := by
    intro pat
    rw [← globCandidates_ne_nil, ← globCandidates_ne_nil]
    cases h1 : globCandidates d pat.1 with
    | nil => simp
    | cons t ts =>
      cases h2 : globCandidates d pat.2 with
      | nil => simp
      | cons a as => simp
  cases hF : discoveryPatterns.findSome? (fun pat =>
      match globCandidates d pat.1, globCandidates d pat.2 with
      | t :: _, a :: _ => some (t, a)
      | _, _ => none) with
  | some p =>
    have hex := List.exists_of_findSome?_eq_some hF
    simp only [findModalityPaths, hF]
    constructor
    · intro _
      left
      rcases hex with ⟨pat, hmem, hsome⟩
      exact ⟨pat, hmem, (hpat pat).mp (by rw [hsome]; rfl)⟩
    · intro _
      rfl
  | none =>
    have hall := List.findSome?_eq_none_iff.mp hF
    have hnopat : ¬∃ pat ∈ discoveryPatterns,
        (∃ f ∈ d.files, strEndsWith f pat.1 = true) ∧
        (∃ f ∈ d.files, strEndsWith f pat.2 = true) := by
      rintro ⟨pat, hmem, hcontra⟩
      have hs := (hpat pat).mpr hcontra
      rw [hall pat hmem] at hs
      exact Bool.false_ne_true hs
    simp only [findModalityPaths, hF]
    by_cases hc : d.files.contains (d.name ++ "_t2w.nii.gz") = true ∧
        d.files.contains (d.name ++ "_adc.nii.gz") = true
    · rw [if_pos ⟨hc.1, hc.2⟩]
      constructor
      · intro _
        exact Or.inr hc
      · intro _
        rfl
    · rw [if_neg (fun h => hc ⟨h.1, h.2⟩)]
      simp only [Option.isSome_none, Bool.false_eq_true, false_iff]
      rintro (h | h)
      · exact hnopat h
      · exact hc h

theorem discovery_count (root : List DirEntry) (d : DirEntry)
    (hd : d ∈ root) (hnd : (root.map (·.name)).Nodup) :
    ((PatientDiscoveryStep.execute root).map (·.patient_id)).count d.name =
      if dirIncluded d then 1 else 0 := by
  induction root with
  | nil => cases hd
  | cons e rest ih =>
    have hnd' : (rest.map (·.name)).Nodup := (List.nodup_cons.mp hnd).2
    rw [PatientDiscoveryStep.execute, List.filterMap_cons]
    rcases List.mem_cons.mp hd with rfl | hd'
    · have hrest0 :
          ((rest.filterMap discoverDir).map (·.patient_id)).count d.name = 0 := by
        rw [List.count_eq_zero]
        intro hmem
        rcases List.mem_map.mp hmem with ⟨w, hw, hpid⟩
        have hwn : w.patient_id ∈ rest.map (·.name) := discovery_pid_mem rest w hw
        rw [hpid] at hwn
        have hnotin : d.name ∉ rest.map (·.name) := by
          have := (List.nodup_cons.mp hnd).1
          simpa using this
        exact hnotin hwn
      cases hde : discoverDir d with
      | none =>
        have hni : dirIncluded d = false := by
          have hi := discoverDir_isSome d
          rw [hde] at hi
          exact hi.symm
        rw [hni]
        simpa [PatientDiscoveryStep.execute] using hrest0
      | some w =>
        have hinc : dirIncluded d = true := by
          have hi := discoverDir_isSome d
          rw [hde] at hi
          exact hi.symm
        have hpid : w.patient_id = d.name := discoverDir_pid d w hde
        rw [hinc]
        simp [List.count_cons, hpid, hrest0]
    · have hne : e.name ≠ d.name := by
        intro hcontra
        have hh : e.name ∉ rest.map (·.name) := by
          have := (List.nodup_cons.mp hnd).1
          simpa using this
        apply hh
        rw [hcontra]
        exact List.mem_map_of_mem (·.name) hd'
      have ihr := ih hd' hnd'
      rw [PatientDiscoveryStep.execute] at ihr
      cases hde : discoverDir e with
      | none => exact ihr
      | some w =>
        have hpid : w.patient_id = e.name := discoverDir_pid e w hde
        rw [List.map_cons, List.count_cons, ihr, hpid]
        simp [hne]

/-- C9: a subdirectory enters the discovered work list exactly once iff it
is a non-hidden directory holding both required modality files under some
recognized naming convention (the three suffix-pattern conventions in
priority order, or the exact-name fallback); a directory with only one of
the two modality files under every convention is excluded, and a hidden
(dot-prefixed) or non-directory child is always skipped. -/
theorem patient_discovery_inclusion (root : List DirEntry) (d : DirEntry)
    (hd : d ∈ root) (hnd : (root.map (·.name)).Nodup) :
    (((PatientDiscoveryStep.execute root).map (·.patient_id)).count d.name =
      if dirIncluded d then 1 else 0) ∧
    (dirIncluded d = true ↔
      d.isDir = true ∧ strStartsWith d.name "." = false ∧
      ((∃ pat ∈ discoveryPatterns,
          (∃ f ∈ d.files, strEndsWith f pat.1 = true) ∧
          (∃ f ∈ d.files, strEndsWith f pat.2 = true)) ∨
        (d.files.contains (d.name ++ "_t2w.nii.gz") = true ∧
          d.files.contains (d.name ++ "_adc.nii.gz") = true))) := by
  refine ⟨discovery_count root d hd hnd, ?_⟩
  rw [← findModalityPaths_isSome_iff]
  simp only [dirIncluded, Bool.and_eq_true, Bool.not_eq_true']
  rw [and_assoc]

/-- Witness for C9 on a root with three children: patient "a" has both
modalities under the first convention and is included once; patient "b" has
only the T2W file and is excluded; hidden ".c" has both files but is
skipped. -/
theorem patient_discovery_inclusion_witness :
    ((⟨"a", true, ["a_t2w.nii.gz", "a_adc.nii.gz"]⟩ : DirEntry) ∈
      ([⟨"a", true, ["a_t2w.nii.gz", "a_adc.nii.gz"]⟩,
        ⟨"b", true, ["b_t2w.nii.gz"]⟩,
        ⟨".c", true, [".c_t2w.nii.gz", ".c_adc.nii.gz"]⟩] : List DirEntry)) ∧
    (([⟨"a", true, ["a_t2w.nii.gz", "a_adc.nii.gz"]⟩,
        ⟨"b", true, ["b_t2w.nii.gz"]⟩,
        ⟨".c", true, [".c_t2w.nii.gz", ".c_adc.nii.gz"]⟩] : List DirEntry).map
      (·.name)).Nodup ∧
    ((PatientDiscoveryStep.execute
        [⟨"a", true, ["a_t2w.nii.gz", "a_adc.nii.gz"]⟩,
         ⟨"b", true, ["b_t2w.nii.gz"]⟩,
         ⟨".c", true, [".c_t2w.nii.gz", ".c_adc.nii.gz"]⟩]).map
      (·.patient_id)).count "a" = 1 ∧
    ((PatientDiscoveryStep.execute
        [⟨"a", true, ["a_t2w.nii.gz", "a_adc.nii.gz"]⟩,
         ⟨"b", true, ["b_t2w.nii.gz"]⟩,
         ⟨".c", true, [".c_t2w.nii.gz", ".c_adc.nii.gz"]⟩]).map
      (·.patient_id)).count "b" = 0 ∧
    ((PatientDiscoveryStep.execute
        [⟨"a", true, ["a_t2w.nii.gz", "a_adc.nii.gz"]⟩,
         ⟨"b", true, ["b_t2w.nii.gz"]⟩,
         ⟨".c", true, [".c_t2w.nii.gz", ".c_adc.nii.gz"]⟩]).map
      (·.patient_id)).count ".c" = 0 := by
  have ha := patient_discovery_inclusion
    [⟨"a", true, ["a_t2w.nii.gz", "a_adc.nii.gz"]⟩,
     ⟨"b", true, ["b_t2w.nii.gz"]⟩,
     ⟨".c", true, [".c_t2w.nii.gz", ".c_adc.nii.gz"]⟩]
    ⟨"a", true, ["a_t2w.nii.gz", "a_adc.nii.gz"]⟩ (by simp) (by decide)
  have hb := patient_discovery_inclusion
    [⟨"a", true, ["a_t2w.nii.gz", "a_adc.nii.gz"]⟩,
     ⟨"b", true, ["b_t2w.nii.gz"]⟩,
     ⟨".c", true, [".c_t2w.nii.gz", ".c_adc.nii.gz"]⟩]
    ⟨"b", true, ["b_t2w.nii.gz"]⟩ (by simp) (by decide)
  have hc := patient_discovery_inclusion
    [⟨"a", true, ["a_t2w.nii.gz", "a_adc.nii.gz"]⟩,
     ⟨"b", true, ["b_t2w.nii.gz"]⟩,
     ⟨".c", true, [".c_t2w.nii.gz", ".c_adc.nii.gz"]⟩]
    ⟨".c", true, [".c_t2w.nii.gz", ".c_adc.nii.gz"]⟩ (by simp) (by decide)
  refine ⟨by simp, by decide, ?_, ?_, ?_⟩
  · rw [ha.1]
    decide
  · rw [hb.1]
    decide
  · rw [hc.1]
    decide

/-! ## C2: the reporting step and the batch outcome -/

/-- A concrete two-patient batch for exercising the reporting step: p1
succeeds, p2 fails with a registration error. -/
def c2Process : BatchResults :=
  BatchProcessingStep.execute
    (fun p => if p.patient_id = "p1"
      then .ok ⟨true, none, none, ["t2w_standardized"], some 1⟩
      else .ok ⟨false, some "registration failed", some "RuntimeError", [], none⟩)
    false [⟨"p1", "t1", "a1"⟩, ⟨"p2", "t2", "a2"⟩] []

/-- The context the engine hands to BatchReportingStep.execute after the
processing step: the input keys updated with the processing step's returned
keys, exactly as BasePipeline.execute merges them. -/
def c2Context : List (String × BVal) :=
  ctxUpdate [("total_patients", BVal.nat 2)] (batchProcessingResult c2Process)

/-- C2 fails on the code: in a batch of 2 patients with 1 success and 1
failure, the processing step's results are merged into the context under the
keys successful/failed/detailed_results, but the reporting step reads
data.get("BatchProcessingStep", default empty), a key no step ever sets, so
the summary reports successful = 0, failed = 0, success_rate = 0, the CSV
has no rows and no error log is produced, contradicting the actual batch
outcome. -/
theorem batch_reporting_misses_processing_results :
    c2Process.successful = ["p1"] ∧
    c2Process.failed = ["p2"] ∧
    c2Process.detailed_results.length = 2 ∧
    ctxLookup c2Context "BatchProcessingStep" = none ∧
    (BatchReportingStep.execute c2Context).1.total_patients = 2 ∧
    (BatchReportingStep.execute c2Context).1.successful = 0 ∧
    (BatchReportingStep.execute c2Context).1.failed = 0 ∧
    (BatchReportingStep.execute c2Context).1.success_rate = 0 ∧
    (BatchReportingStep.execute c2Context).2.1 = [] ∧
    (BatchReportingStep.execute c2Context).2.2 = none := by
  have hnone : ctxLookup c2Context "BatchProcessingStep" = none := by decide
  have htot : ctxLookup c2Context "total_patients" = some (BVal.nat 2) := by decide
  refine ⟨by decide, by decide, by decide, hnone, by decide, by decide, by decide,
    ?_, by decide, by decide⟩
  simp only [BatchReportingStep.execute, hnone, htot]
  norm_num



